import Mathlib

/-!
Verification of the apiwatch monitoring core against its specification.

The embedding below is a shallow model of the Python source:
  * `check_api` models `HealthCheckExecutor.check_api`
    (src/backend/app/workers/health_checker.py, lines 29-94); the outcome of
    the single HTTP request is an environment parameter `HttpOutcome`, one
    constructor per control path of the try/except ladder.
  * `handle_incident` models the incident tracker
    (src/backend/app/workers/health_checker.py, lines 132-198); the database
    is an explicit `IncidentStore` value, timestamps are whole seconds
    (`Nat`), and the `scalar_one_or_none` call is modelled with `Except`
    because SQLAlchemy raises when the query returns more than one row.
  * `check_all_active_monitors` models the cycle runner
    (src/backend/app/workers/health_checker.py, lines 201-256); the effects
    it can produce (saved checks, websocket broadcasts, store updates) are
    collected in a `CycleEffects` record.
  * `disconnect` and `broadcast` model `WebSocketManager`
    (src/backend/app/websocket/manager.py); connections are abstract
    handles (`Nat`), and per-broadcast delivery failure is an environment
    parameter `fails`.
-/

namespace Apiwatch

/-- Monitor configuration row, from src/backend/app/models/api_monitor.py.
The pydantic schema bounds `timeout` to 1-60 seconds and `expected_status`
to 100-599; those bounds are not re-imposed here, theorems state them
explicitly where needed. -/
structure APIMonitor where
  id : Nat
  name : String
  url : String
  method : String
  headers : List (String × String)
  expected_status : Nat
  check_interval : Nat
  timeout : Nat
  is_active : Bool
  deriving Repr, DecidableEq

/-- Outcome of the single `self.client.request` call inside `check_api`:
either a response with a status code and an elapsed time in milliseconds,
or one of the three exception classes distinguished by the except ladder
(httpx.TimeoutException, httpx.NetworkError, any other Exception). -/
inductive HttpOutcome where
  | response (status : Nat) (elapsed_ms : Nat)
  | timeoutExc
  | networkError (detail : String)
  | unexpectedError (detail : String)
  deriving Repr, DecidableEq

/-- Result dict built by `check_api` (health_checker.py lines 40-45). -/
structure CheckResult where
  status_code : Option Nat
  response_time : Option Nat
  is_up : Bool
  error_message : Option String
  deriving Repr, DecidableEq

/-- The `httpx.Timeout(monitor.timeout, connect=5.0)` pair built at
health_checker.py line 50: total budget from the config, connection
establishment budget a constant 5 seconds. -/
structure HttpxTimeout where
  total : Nat
  connect : Nat
  deriving Repr, DecidableEq

/-- health_checker.py line 50. -/
def requestTimeout (monitor : APIMonitor) : HttpxTimeout :=
  { total := monitor.timeout, connect := 5 }

/-- `HealthCheckExecutor.check_api` (health_checker.py lines 29-94).
Success path: record status code and elapsed milliseconds, set
`is_up := status == expected_status`, and when not up the mismatch
message. Each except branch leaves status code and response time at their
initial `None` and fills only `error_message`. -/
def check_api (monitor : APIMonitor) (outcome : HttpOutcome) : CheckResult :=
  match outcome with
  | .response status elapsed =>
      { status_code := some status
        response_time := some elapsed
        is_up := status == monitor.expected_status
        error_message :=
          if status == monitor.expected_status then none
          else some ("Expected status " ++ toString monitor.expected_status
                      ++ ", got " ++ toString status) }
  | .timeoutExc =>
      { status_code := none, response_time := none, is_up := false
        error_message :=
          some ("Request timeout after " ++ toString monitor.timeout ++ "s") }
  | .networkError detail =>
      { status_code := none, response_time := none, is_up := false
        error_message := some ("Network error: " ++ detail) }
  | .unexpectedError detail =>
      { status_code := none, response_time := none, is_up := false
        error_message := some ("Unexpected error: " ++ detail) }

/-- An outcome that took one of the three except branches. -/
def HttpOutcome.isException : HttpOutcome → Bool
  | .response _ _ => false
  | _ => true

theorem string_append_ne_empty (s t : String) (h : s.length ≠ 0) :
    s ++ t ≠ "" := by
  intro he
  have hl := congrArg String.length he
  rw [String.length_append] at hl
  simp at hl
  exact h hl.1

theorem string_append3_ne_empty (s t u : String) (h : s.length ≠ 0) :
    s ++ t ++ u ≠ "" := by
  intro he
  have hl := congrArg String.length he
  rw [String.length_append, String.length_append] at hl
  simp at hl
  exact h hl.1.1

/-- C2: `check_api` returns `is_up = true` exactly when a response was
received whose status code equals the configured `expected_status`; on the
three exception paths the result has `is_up = false`, no status code, and a
non-empty error message. -/
theorem check_api_is_up_iff (monitor : APIMonitor) (outcome : HttpOutcome) :
    ((check_api monitor outcome).is_up = true ↔
      ∃ elapsed, outcome = .response monitor.expected_status elapsed) ∧
    (outcome.isException = true →
      (check_api monitor outcome).is_up = false ∧
      (check_api monitor outcome).status_code = none ∧
      ∃ msg, (check_api monitor outcome).error_message = some msg ∧ msg ≠ "") := by
  constructor
  · cases outcome with
    | response status elapsed =>
        simp only [check_api, beq_iff_eq]
        constructor
        · intro h
          exact ⟨elapsed, by rw [h]⟩
        · rintro ⟨e, he⟩
          cases he
          rfl
    | timeoutExc => simp [check_api]
    | networkError d => simp [check_api]
    | unexpectedError d => simp [check_api]
  · intro hexc
    cases outcome with
    | response status elapsed => simp [HttpOutcome.isException] at hexc
    | timeoutExc =>
        refine ⟨rfl, rfl, "Request timeout after " ++ toString monitor.timeout ++ "s", rfl, ?_⟩
        exact string_append3_ne_empty "Request timeout after " _ _ (by decide)
    | networkError d =>
        refine ⟨rfl, rfl, "Network error: " ++ d, rfl, ?_⟩
        exact string_append_ne_empty _ _ (by decide)
    | unexpectedError d =>
        refine ⟨rfl, rfl, "Unexpected error: " ++ d, rfl, ?_⟩
        exact string_append_ne_empty _ _ (by decide)

/-- Witness for `check_api_is_up_iff` at a concrete monitor and a concrete
exception outcome. -/
theorem check_api_is_up_iff_witness :
    ((check_api ⟨1, "m", "http://x", "GET", [], 200, 60, 10, true⟩ .timeoutExc).is_up = false ∧
      (check_api ⟨1, "m", "http://x", "GET", [], 200, 60, 10, true⟩ .timeoutExc).status_code = none ∧
      ∃ msg, (check_api ⟨1, "m", "http://x", "GET", [], 200, 60, 10, true⟩ .timeoutExc).error_message
        = some msg ∧ msg ≠ "") :=
  (check_api_is_up_iff ⟨1, "m", "http://x", "GET", [], 200, 60, 10, true⟩ .timeoutExc).2 (by decide)

/-- C7: the three exception branches classify a failed probe into exactly
one of timeout, network error, or unexpected error, with the exact messages
"Request timeout after \x7btimeout\x7ds", "Network error: \x7bdetail\x7d",
"Unexpected error: \x7bdetail\x7d"; all three yield `is_up = false` with
status code and response time absent. `check_api` is a total function, so
every call returns a `CheckResult` and no exception escapes. -/
theorem check_api_failure_classification (monitor : APIMonitor) (d d2 : String) :
    check_api monitor .timeoutExc =
      { status_code := none, response_time := none, is_up := false
        error_message :=
          some ("Request timeout after " ++ toString monitor.timeout ++ "s") } ∧
    check_api monitor (.networkError d) =
      { status_code := none, response_time := none, is_up := false
        error_message := some ("Network error: " ++ d) } ∧
    check_api monitor (.unexpectedError d2) =
      { status_code := none, response_time := none, is_up := false
        error_message := some ("Unexpected error: " ++ d2) } :=
  ⟨rfl, rfl, rfl⟩

/-- C9 counterexample: a monitor with `timeout = 1` (the lower end of the
documented 1-60 second bound) gets a connection timeout of 5 seconds, which
exceeds the total timeout of 1 second. -/
theorem requestTimeout_connect_exceeds_total :
    ¬ ((requestTimeout ⟨1, "m", "http://x", "GET", [], 200, 60, 1, true⟩).connect ≤
        (requestTimeout ⟨1, "m", "http://x", "GET", [], 200, 60, 1, true⟩).total) := by
  decide

/-- C9 amended: the connection-establishment timeout is the constant 5
seconds, so it does not exceed the total timeout exactly for configs with
`timeout ≥ 5`; for documented timeouts of 1-4 seconds it exceeds the total. -/
theorem requestTimeout_connect_le_total (monitor : APIMonitor)
    (h : 5 ≤ monitor.timeout) :
    (requestTimeout monitor).connect ≤ (requestTimeout monitor).total := h

/-- Witness for `requestTimeout_connect_le_total` at the default 10 second
timeout. -/
theorem requestTimeout_connect_le_total_witness :
    5 ≤ (10 : Nat) ∧
    (requestTimeout ⟨2, "d", "http://y", "GET", [], 200, 60, 10, true⟩).connect ≤
      (requestTimeout ⟨2, "d", "http://y", "GET", [], 200, 60, 10, true⟩).total :=
  ⟨by decide, requestTimeout_connect_le_total ⟨2, "d", "http://y", "GET", [], 200, 60, 10, true⟩ (by decide)⟩

/-! ### Incident tracker -/

/-- Row of the incidents table (src/backend/app/models/incident.py).
`started_at` is filled by the database default `now()` at creation;
timestamps are modelled as whole seconds, so the `int()` truncation in the
duration computation is the identity. -/
structure Incident where
  id : Nat
  monitor_id : Nat
  started_at : Nat
  resolved_at : Option Nat
  duration : Option Int
  alert_sent : Bool
  deriving Repr, DecidableEq

/-- The incidents table together with the autoincrement counter for the
primary key. -/
structure IncidentStore where
  incidents : List Incident
  nextId : Nat
  deriving Repr, DecidableEq

def emptyStore : IncidentStore := { incidents := [], nextId := 0 }

/-- Rows returned by the query at health_checker.py lines 152-155:
incidents of the monitor whose `resolved_at` is NULL. The `order_by`
clause is irrelevant because `scalar_one_or_none` does not pick the first
row, it demands at most one. -/
def openIncidents (store : IncidentStore) (mid : Nat) : List Incident :=
  store.incidents.filter (fun i => i.monitor_id == mid && i.resolved_at.isNone)

/-- SQLAlchemy `Result.scalar_one_or_none`: `none` on an empty result,
the row when there is exactly one, and `MultipleResultsFound` raised
otherwise. -/
def scalar_one_or_none (rows : List Incident) : Except String (Option Incident) :=
  match rows with
  | [] => .ok none
  | [i] => .ok (some i)
  | _ => .error "MultipleResultsFound"

/-- The incident created at health_checker.py lines 164-167: only
`monitor_id` and `alert_sent` are passed, `started_at` comes from the
database default `now()` and `resolved_at`/`duration` stay NULL. -/
def newIncident (nid mid now : Nat) : Incident :=
  { id := nid, monitor_id := mid, started_at := now
    resolved_at := none, duration := none, alert_sent := false }

/-- The resolution at health_checker.py lines 183-186: set `resolved_at`
to now and `duration` to the elapsed seconds. -/
def resolveIncident (inc : Incident) (now : Nat) : Incident :=
  { inc with resolved_at := some now
             duration := some ((now : Int) - (inc.started_at : Int)) }

/-- Store after `db.add(incident); db.commit()`: the new row is appended
and the autoincrement counter moves on. -/
def createdStore (store : IncidentStore) (mid now : Nat) : IncidentStore :=
  { incidents := store.incidents ++ [newIncident store.nextId mid now]
    nextId := store.nextId + 1 }

/-- Store after committing the resolution: the row with the primary key of
the ongoing incident is replaced by its resolved version. -/
def resolvedStore (store : IncidentStore) (inc : Incident) (now : Nat) :
    IncidentStore :=
  { store with
      incidents := store.incidents.map
        (fun j => if j.id == inc.id then resolveIncident inc now else j) }

/-- `handle_incident` (health_checker.py lines 132-198) with the database
session made explicit: returns the updated store and the incident created
or resolved on this call, or `none` when nothing changed. -/
def handle_incident (store : IncidentStore) (mid : Nat) (is_up : Bool)
    (now : Nat) : Except String (IncidentStore × Option Incident) :=
  match scalar_one_or_none (openIncidents store mid) with
  | .error e => .error e
  | .ok ongoing_incident =>
    if !is_up then
      match ongoing_incident with
      | none =>
          .ok (createdStore store mid now, some (newIncident store.nextId mid now))
      | some _ => .ok (store, none)
    else
      match ongoing_incident with
      | some inc =>
          .ok (resolvedStore store inc now, some (resolveIncident inc now))
      | none => .ok (store, none)

/-- One call to the tracker: which monitor, the probed `is_up`, and the
current time in seconds. -/
structure UpdateEvent where
  monitor_id : Nat
  is_up : Bool
  now : Nat
  deriving Repr, DecidableEq

/-- Replay a sequence of results through `handle_incident`, left to right. -/
def runUpdates (store : IncidentStore) (events : List UpdateEvent) :
    Except String IncidentStore :=
  match events with
  | [] => .ok store
  | e :: rest =>
    match handle_incident store e.monitor_id e.is_up e.now with
    | .error msg => .error msg
    | .ok (store2, _) => runUpdates store2 rest

/-- The event times are at or after `c` and nondecreasing. -/
def clockOK (c : Nat) : List UpdateEvent → Bool
  | [] => true
  | e :: rest => c ≤ e.now && clockOK e.now rest

theorem handle_incident_up_nil (store : IncidentStore) (mid now : Nat)
    (h : openIncidents store mid = []) :
    handle_incident store mid true now = .ok (store, none) := by
  unfold handle_incident
  rw [h]
  rfl

theorem handle_incident_down_nil (store : IncidentStore) (mid now : Nat)
    (h : openIncidents store mid = []) :
    handle_incident store mid false now =
      .ok (createdStore store mid now, some (newIncident store.nextId mid now)) := by
  unfold handle_incident
  rw [h]
  rfl

theorem handle_incident_down_cons (store : IncidentStore) (mid now : Nat)
    (inc : Incident) (h : openIncidents store mid = [inc]) :
    handle_incident store mid false now = .ok (store, none) := by
  unfold handle_incident
  rw [h]
  rfl

theorem handle_incident_up_cons (store : IncidentStore) (mid now : Nat)
    (inc : Incident) (h : openIncidents store mid = [inc]) :
    handle_incident store mid true now =
      .ok (resolvedStore store inc now, some (resolveIncident inc now)) := by
  unfold handle_incident
  rw [h]
  rfl

/-- C4: the tracker follows the two-state machine. State Up is "no open
incident for the monitor", state Down is "one open incident". From Up with
a down result it creates and returns a fresh incident with start `now` and
no resolution; from Up with an up result it changes nothing and returns
nothing; from Down with a down result it changes nothing and returns
nothing; from Down with an up result it resolves the open incident
(resolution `now`, duration `now - started_at`) and returns it. -/
theorem handle_incident_state_machine (store : IncidentStore) (mid now : Nat) :
    (openIncidents store mid = [] →
      handle_incident store mid false now =
        .ok (createdStore store mid now, some (newIncident store.nextId mid now)) ∧
      (newIncident store.nextId mid now).started_at = now ∧
      (newIncident store.nextId mid now).resolved_at = none) ∧
    (openIncidents store mid = [] →
      handle_incident store mid true now = .ok (store, none)) ∧
    (∀ inc, openIncidents store mid = [inc] →
      handle_incident store mid false now = .ok (store, none)) ∧
    (∀ inc, openIncidents store mid = [inc] →
      handle_incident store mid true now =
        .ok (resolvedStore store inc now, some (resolveIncident inc now)) ∧
      (resolveIncident inc now).resolved_at = some now ∧
      (resolveIncident inc now).duration =
        some ((now : Int) - (inc.started_at : Int))) := by
  refine ⟨fun h => ⟨handle_incident_down_nil store mid now h, rfl, rfl⟩,
          fun h => handle_incident_up_nil store mid now h,
          fun inc h => handle_incident_down_cons store mid now inc h,
          fun inc h => ⟨handle_incident_up_cons store mid now inc h, rfl, rfl⟩⟩

/-- Witness for `handle_incident_state_machine`: all four transitions at
concrete stores (the empty store for state Up, a store holding one open
incident for monitor 7 for state Down). -/
theorem handle_incident_state_machine_witness :
    (handle_incident emptyStore 7 false 1 =
      .ok (createdStore emptyStore 7 1, some (newIncident emptyStore.nextId 7 1))) ∧
    (handle_incident emptyStore 7 true 1 = .ok (emptyStore, none)) ∧
    (handle_incident ⟨[⟨0, 7, 1, none, none, false⟩], 1⟩ 7 false 5 =
      .ok (⟨[⟨0, 7, 1, none, none, false⟩], 1⟩, none)) ∧
    (handle_incident ⟨[⟨0, 7, 1, none, none, false⟩], 1⟩ 7 true 5 =
      .ok (resolvedStore ⟨[⟨0, 7, 1, none, none, false⟩], 1⟩ ⟨0, 7, 1, none, none, false⟩ 5,
           some (resolveIncident ⟨0, 7, 1, none, none, false⟩ 5))) :=
  ⟨((handle_incident_state_machine emptyStore 7 1).1 (by decide)).1,
   (handle_incident_state_machine emptyStore 7 1).2.1 (by decide),
   (handle_incident_state_machine ⟨[⟨0, 7, 1, none, none, false⟩], 1⟩ 7 5).2.2.1
     ⟨0, 7, 1, none, none, false⟩ (by decide),
   ((handle_incident_state_machine ⟨[⟨0, 7, 1, none, none, false⟩], 1⟩ 7 5).2.2.2
     ⟨0, 7, 1, none, none, false⟩ (by decide)).1⟩

/-- Structural invariant of the incidents table: primary keys are distinct
and below the autoincrement counter, and every monitor has at most one open
incident. The last clause is the spec invariant; it is also what keeps the
`scalar_one_or_none` call from raising. -/
structure StoreInv (store : IncidentStore) : Prop where
  ids_nodup : (store.incidents.map Incident.id).Nodup
  ids_lt : ∀ i ∈ store.incidents, i.id < store.nextId
  open_le_one : ∀ mid, (openIncidents store mid).length ≤ 1

theorem emptyStore_inv : StoreInv emptyStore :=
  ⟨by simp [emptyStore], by simp [emptyStore],
   fun mid => by simp [openIncidents, emptyStore]⟩

theorem openIncidents_createdStore (store : IncidentStore) (mid now m : Nat) :
    openIncidents (createdStore store mid now) m =
      openIncidents store m ++
        (if mid = m then [newIncident store.nextId mid now] else []) := by
  unfold openIncidents createdStore
  rw [List.filter_append]
  congr 1
  by_cases h : mid = m
  · simp [newIncident, h]
  · simp [newIncident, h]

theorem createdStore_inv (store : IncidentStore) (mid now : Nat)
    (hinv : StoreInv store) (h : openIncidents store mid = []) :
    StoreInv (createdStore store mid now) := by
  refine ⟨?_, ?_, ?_⟩
  · show ((store.incidents ++ [newIncident store.nextId mid now]).map Incident.id).Nodup
    rw [List.map_append]
    refine List.Nodup.append hinv.ids_nodup (by simp) ?_
    intro a ha hb
    simp [newIncident] at hb
    subst hb
    rcases List.mem_map.mp ha with ⟨i, hi, hid⟩
    have := hinv.ids_lt i hi
    omega
  · intro i hi
    rcases List.mem_append.mp hi with h1 | h1
    · have := hinv.ids_lt i h1
      show i.id < store.nextId + 1
      omega
    · simp at h1
      subst h1
      show store.nextId < store.nextId + 1
      omega
  · intro m
    rw [openIncidents_createdStore]
    by_cases hm : mid = m
    · subst hm
      rw [h]
      simp
    · rw [if_neg hm]
      simp
      exact hinv.open_le_one m

theorem resolvedStore_id_map (store : IncidentStore) (inc : Incident) (now : Nat) :
    (resolvedStore store inc now).incidents.map Incident.id =
      store.incidents.map Incident.id := by
  unfold resolvedStore
  rw [List.map_map]
  refine List.map_congr_left ?_
  intro a _
  show (if a.id == inc.id then resolveIncident inc now else a).id = a.id
  by_cases h : a.id == inc.id
  · rw [if_pos h]
    have := beq_iff_eq.mp h
    show inc.id = a.id
    omega
  · rw [if_neg h]

theorem openIncidents_resolvedStore_len (store : IncidentStore) (inc : Incident)
    (now m : Nat) :
    (openIncidents (resolvedStore store inc now) m).length ≤
      (openIncidents store m).length := by
  unfold openIncidents resolvedStore
  rw [List.filter_map, List.length_map,
      ← List.countP_eq_length_filter, ← List.countP_eq_length_filter]
  refine List.countP_mono_left ?_
  intro a _ hp
  simp only [Function.comp_apply] at hp
  split at hp
  · simp [resolveIncident] at hp
  · exact hp

theorem resolvedStore_inv (store : IncidentStore) (inc : Incident) (now : Nat)
    (hinv : StoreInv store) : StoreInv (resolvedStore store inc now) := by
  refine ⟨?_, ?_, ?_⟩
  · rw [resolvedStore_id_map]
    exact hinv.ids_nodup
  · intro i hi
    unfold resolvedStore at hi
    rcases List.mem_map.mp hi with ⟨a, ha, hga⟩
    have hlt := hinv.ids_lt a ha
    show i.id < store.nextId
    by_cases h : a.id == inc.id
    · rw [if_pos h] at hga
      have hbe := beq_iff_eq.mp h
      rw [← hga]
      show (resolveIncident inc now).id < store.nextId
      show inc.id < store.nextId
      omega
    · rw [if_neg h] at hga
      rw [← hga]
      exact hlt
  · intro m
    exact le_trans (openIncidents_resolvedStore_len store inc now m)
      (hinv.open_le_one m)

theorem handle_incident_inv (store : IncidentStore) (mid : Nat) (is_up : Bool)
    (now : Nat) (hinv : StoreInv store) :
    ∃ store2 ret, handle_incident store mid is_up now = .ok (store2, ret) ∧
      StoreInv store2 := by
  have hlen := hinv.open_le_one mid
  cases hop : openIncidents store mid with
  | nil =>
    cases is_up
    · exact ⟨_, _, handle_incident_down_nil store mid now hop,
        createdStore_inv store mid now hinv hop⟩
    · exact ⟨_, _, handle_incident_up_nil store mid now hop, hinv⟩
  | cons inc rest =>
    have hrest : rest = [] := by
      rw [hop] at hlen
      simp only [List.length_cons] at hlen
      have hz : rest.length = 0 := by omega
      exact List.length_eq_zero.mp hz
    subst hrest
    cases is_up
    · exact ⟨_, _, handle_incident_down_cons store mid now inc hop, hinv⟩
    · exact ⟨_, _, handle_incident_up_cons store mid now inc hop,
        resolvedStore_inv store inc now hinv⟩

theorem runUpdates_inv (events : List UpdateEvent) :
    ∀ store : IncidentStore, StoreInv store →
      ∃ store2, runUpdates store events = .ok store2 ∧ StoreInv store2 := by
  induction events with
  | nil => exact fun store hinv => ⟨store, rfl, hinv⟩
  | cons e rest ih =>
    intro store hinv
    rcases handle_incident_inv store e.monitor_id e.is_up e.now hinv with
      ⟨store2, ret, heq, hinv2⟩
    rcases ih store2 hinv2 with ⟨store3, heq3, hinv3⟩
    refine ⟨store3, ?_, hinv3⟩
    unfold runUpdates
    rw [heq]
    exact heq3

/-- C3: starting from the empty incidents table, after any sequence of
tracker updates every monitor has either zero or one open incident, never
more (and no update along the way raises). -/
theorem at_most_one_open_incident (events : List UpdateEvent) :
    ∃ store2, runUpdates emptyStore events = .ok store2 ∧
      ∀ mid, (openIncidents store2 mid).length = 0 ∨
        (openIncidents store2 mid).length = 1 := by
  rcases runUpdates_inv events emptyStore emptyStore_inv with ⟨store2, heq, hinv⟩
  refine ⟨store2, heq, fun mid => ?_⟩
  have := hinv.open_le_one mid
  omega

/-- In a store with distinct primary keys, rows are determined by their id. -/
theorem store_id_inj (store : IncidentStore) (hinv : StoreInv store) :
    ∀ a ∈ store.incidents, ∀ b ∈ store.incidents, a.id = b.id → a = b := by
  have hp := List.pairwise_map.mp hinv.ids_nodup
  intro a ha b hb heq
  by_contra hne
  exact hp.forall (fun x y hxy => (hxy ∘ Eq.symm)) ha hb hne heq

/-- Time-aware invariant at time `clock`: all start times are at or before
`clock`, and every resolved incident was resolved between its start and
`clock`, with duration recorded as resolution minus start. -/
structure StoreWF (store : IncidentStore) (clock : Nat) : Prop where
  inv : StoreInv store
  started_le : ∀ i ∈ store.incidents, i.started_at ≤ clock
  resolved_ok : ∀ i ∈ store.incidents, ∀ t ∈ i.resolved_at,
    i.started_at ≤ t ∧ t ≤ clock ∧
    i.duration = some ((t : Int) - (i.started_at : Int))

theorem emptyStore_wf : StoreWF emptyStore 0 :=
  ⟨emptyStore_inv, by simp [emptyStore], by simp [emptyStore]⟩

theorem StoreWF.mono (store : IncidentStore) (c c2 : Nat) (h : StoreWF store c)
    (hle : c ≤ c2) : StoreWF store c2 := by
  refine ⟨h.inv, fun i hi => le_trans (h.started_le i hi) hle, fun i hi t ht => ?_⟩
  rcases h.resolved_ok i hi t ht with ⟨h1, h2, h3⟩
  exact ⟨h1, le_trans h2 hle, h3⟩

theorem createdStore_wf (store : IncidentStore) (mid now clock : Nat)
    (h : StoreWF store clock) (hle : clock ≤ now)
    (hop : openIncidents store mid = []) :
    StoreWF (createdStore store mid now) now := by
  refine ⟨createdStore_inv store mid now h.inv hop, ?_, ?_⟩
  · intro i hi
    rcases List.mem_append.mp hi with h1 | h1
    · exact le_trans (h.started_le i h1) hle
    · simp at h1
      subst h1
      show now ≤ now
      omega
  · intro i hi t ht
    rcases List.mem_append.mp hi with h1 | h1
    · rcases h.resolved_ok i h1 t ht with ⟨ha, hb, hc⟩
      exact ⟨ha, le_trans hb hle, hc⟩
    · simp at h1
      subst h1
      simp [newIncident] at ht

theorem resolvedStore_wf (store : IncidentStore) (inc : Incident)
    (now clock : Nat) (h : StoreWF store clock) (hle : clock ≤ now)
    (hinc : inc ∈ store.incidents) :
    StoreWF (resolvedStore store inc now) now := by
  refine ⟨resolvedStore_inv store inc now h.inv, ?_, ?_⟩
  · intro i hi
    rcases List.mem_map.mp hi with ⟨a, ha, hga⟩
    by_cases hb : a.id == inc.id
    · rw [if_pos hb] at hga
      rw [← hga]
      show inc.started_at ≤ now
      exact le_trans (h.started_le inc hinc) hle
    · rw [if_neg hb] at hga
      rw [← hga]
      exact le_trans (h.started_le a ha) hle
  · intro i hi t ht
    rcases List.mem_map.mp hi with ⟨a, ha, hga⟩
    by_cases hb : a.id == inc.id
    · rw [if_pos hb] at hga
      rw [← hga] at ht ⊢
      simp [resolveIncident] at ht
      subst ht
      refine ⟨le_trans (h.started_le inc hinc) hle, le_refl now, rfl⟩
    · rw [if_neg hb] at hga
      rw [← hga] at ht ⊢
      rcases h.resolved_ok a ha t ht with ⟨h1, h2, h3⟩
      exact ⟨h1, le_trans h2 hle, h3⟩

theorem handle_incident_wf (store : IncidentStore) (mid : Nat) (is_up : Bool)
    (now clock : Nat) (hwf : StoreWF store clock) (hle : clock ≤ now) :
    ∃ store2 ret, handle_incident store mid is_up now = .ok (store2, ret) ∧
      StoreWF store2 now := by
  have hlen := hwf.inv.open_le_one mid
  cases hop : openIncidents store mid with
  | nil =>
    cases is_up
    · exact ⟨_, _, handle_incident_down_nil store mid now hop,
        createdStore_wf store mid now clock hwf hle hop⟩
    · exact ⟨_, _, handle_incident_up_nil store mid now hop,
        StoreWF.mono store clock now hwf hle⟩
  | cons inc rest =>
    have hrest : rest = [] := by
      rw [hop] at hlen
      simp only [List.length_cons] at hlen
      have hz : rest.length = 0 := by omega
      exact List.length_eq_zero.mp hz
    subst hrest
    have hinc : inc ∈ store.incidents := by
      have hmem : inc ∈ openIncidents store mid := by
        rw [hop]
        exact List.mem_singleton_self inc
      exact (List.mem_filter.mp hmem).1
    cases is_up
    · exact ⟨_, _, handle_incident_down_cons store mid now inc hop,
        StoreWF.mono store clock now hwf hle⟩
    · exact ⟨_, _, handle_incident_up_cons store mid now inc hop,
        resolvedStore_wf store inc now clock hwf hle hinc⟩

theorem runUpdates_wf (events : List UpdateEvent) :
    ∀ (store : IncidentStore) (clock : Nat), StoreWF store clock →
      clockOK clock events = true →
      ∃ store2 clock2, runUpdates store events = .ok store2 ∧
        StoreWF store2 clock2 := by
  induction events with
  | nil => exact fun store clock hwf _ => ⟨store, clock, rfl, hwf⟩
  | cons e rest ih =>
    intro store clock hwf hck
    simp only [clockOK, Bool.and_eq_true, decide_eq_true_eq] at hck
    rcases handle_incident_wf store e.monitor_id e.is_up e.now clock hwf hck.1 with
      ⟨store2, ret, heq, hwf2⟩
    rcases ih store2 e.now hwf2 hck.2 with ⟨store3, clock3, heq3, hwf3⟩
    refine ⟨store3, clock3, ?_, hwf3⟩
    unfold runUpdates
    rw [heq]
    exact heq3

/-- C5: starting from the empty incidents table and replaying any update
sequence with nondecreasing times, every resolved incident has
`duration = resolved_at - started_at`, and that duration is non-negative. -/
theorem resolved_incident_duration (events : List UpdateEvent)
    (h : clockOK 0 events = true) :
    ∃ store2, runUpdates emptyStore events = .ok store2 ∧
      ∀ i ∈ store2.incidents, ∀ t ∈ i.resolved_at,
        i.duration = some ((t : Int) - (i.started_at : Int)) ∧
        ∀ d ∈ i.duration, 0 ≤ d := by
  rcases runUpdates_wf events emptyStore 0 emptyStore_wf h with
    ⟨store2, clock2, heq, hwf⟩
  refine ⟨store2, heq, fun i hi t ht => ?_⟩
  rcases hwf.resolved_ok i hi t ht with ⟨h1, _, h3⟩
  refine ⟨h3, fun d hd => ?_⟩
  rw [h3] at hd
  simp at hd
  subst hd
  have : (i.started_at : Int) ≤ (t : Int) := Int.ofNat_le.mpr h1
  omega

/-- Witness for `resolved_incident_duration`: monitor 0 goes down at time 1
and comes back up at time 3. -/
theorem resolved_incident_duration_witness :
    clockOK 0 [⟨0, false, 1⟩, ⟨0, true, 3⟩] = true ∧
    (∃ store2, runUpdates emptyStore [⟨0, false, 1⟩, ⟨0, true, 3⟩] = .ok store2 ∧
      ∀ i ∈ store2.incidents, ∀ t ∈ i.resolved_at,
        i.duration = some ((t : Int) - (i.started_at : Int)) ∧
        ∀ d ∈ i.duration, 0 ≤ d) :=
  ⟨by decide, resolved_incident_duration [⟨0, false, 1⟩, ⟨0, true, 3⟩] (by decide)⟩

deriving instance DecidableEq for Except

theorem runUpdates_append (a b : List UpdateEvent) :
    ∀ store, runUpdates store (a ++ b) =
      match runUpdates store a with
      | .ok s2 => runUpdates s2 b
      | .error e => .error e := by
  induction a with
  | nil => intro store; rfl
  | cons e rest ih =>
    intro store
    simp only [List.cons_append, runUpdates]
    cases handle_incident store e.monitor_id e.is_up e.now with
    | error msg => rfl
    | ok p =>
      cases p with
      | mk s2 r => exact ih s2

theorem runUpdates_allUp (events : List UpdateEvent)
    (h : ∀ e ∈ events, e.is_up = true) :
    runUpdates emptyStore events = .ok emptyStore := by
  induction events with
  | nil => rfl
  | cons e rest ih =>
    have he : e.is_up = true := h e (List.mem_cons_self e rest)
    have hop : openIncidents emptyStore e.monitor_id = [] := rfl
    unfold runUpdates
    rw [he, handle_incident_up_nil emptyStore e.monitor_id e.now hop]
    exact ih (fun x hx => h x (List.mem_cons_of_mem e hx))

theorem runUpdates_allDown_first (events : List UpdateEvent) :
    ∀ store, StoreInv store → (∀ e ∈ events, e.is_up = false) →
      ∃ store2, runUpdates store events = .ok store2 ∧ StoreInv store2 ∧
        (∀ m, openIncidents store m ≠ [] → openIncidents store2 m ≠ []) ∧
        (∀ e ∈ events, openIncidents store2 e.monitor_id ≠ []) := by
  induction events with
  | nil =>
    intro store hinv _
    exact ⟨store, rfl, hinv, fun m hm => hm, by simp⟩
  | cons e rest ih =>
    intro store hinv h
    have he : e.is_up = false := h e (List.mem_cons_self e rest)
    have hrest : ∀ x ∈ rest, x.is_up = false :=
      fun x hx => h x (List.mem_cons_of_mem e hx)
    cases hop : openIncidents store e.monitor_id with
    | nil =>
      have hinv2 := createdStore_inv store e.monitor_id e.now hinv hop
      rcases ih (createdStore store e.monitor_id e.now) hinv2 hrest with
        ⟨store3, heq3, hinv3, hpre3, hall3⟩
      have hpre2 : ∀ m, openIncidents store m ≠ [] →
          openIncidents (createdStore store e.monitor_id e.now) m ≠ [] := by
        intro m hm
        rw [openIncidents_createdStore]
        intro hcontra
        exact hm (List.append_eq_nil.mp hcontra).1
      have hself :
          openIncidents (createdStore store e.monitor_id e.now) e.monitor_id ≠ [] := by
        rw [openIncidents_createdStore, hop, if_pos rfl]
        simp
      refine ⟨store3, ?_, hinv3, fun m hm => hpre3 m (hpre2 m hm), ?_⟩
      · unfold runUpdates
        rw [he, handle_incident_down_nil store e.monitor_id e.now hop]
        exact heq3
      · intro x hx
        rcases List.mem_cons.mp hx with h1 | h1
        · subst h1
          exact hpre3 _ hself
        · exact hall3 x h1
    | cons inc rest2 =>
      have hlen := hinv.open_le_one e.monitor_id
      have hrest2 : rest2 = [] := by
        rw [hop] at hlen
        simp only [List.length_cons] at hlen
        have hz : rest2.length = 0 := by omega
        exact List.length_eq_zero.mp hz
      subst hrest2
      rcases ih store hinv hrest with ⟨store3, heq3, hinv3, hpre3, hall3⟩
      refine ⟨store3, ?_, hinv3, hpre3, ?_⟩
      · unfold runUpdates
        rw [he, handle_incident_down_cons store e.monitor_id e.now inc hop]
        exact heq3
      · intro x hx
        rcases List.mem_cons.mp hx with h1 | h1
        · subst h1
          refine hpre3 _ ?_
          rw [hop]
          simp
        · exact hall3 x h1

theorem runUpdates_allDown_noop (events : List UpdateEvent) :
    ∀ store, StoreInv store → (∀ e ∈ events, e.is_up = false) →
      (∀ e ∈ events, openIncidents store e.monitor_id ≠ []) →
      runUpdates store events = .ok store := by
  induction events with
  | nil => intro store _ _ _; rfl
  | cons e rest ih =>
    intro store hinv hdown hopen
    have hne := hopen e (List.mem_cons_self e rest)
    have hlen := hinv.open_le_one e.monitor_id
    cases hop : openIncidents store e.monitor_id with
    | nil => exact absurd hop hne
    | cons inc rest2 =>
      have hrest2 : rest2 = [] := by
        rw [hop] at hlen
        simp only [List.length_cons] at hlen
        have hz : rest2.length = 0 := by omega
        exact List.length_eq_zero.mp hz
      subst hrest2
      unfold runUpdates
      rw [hdown e (List.mem_cons_self e rest),
          handle_incident_down_cons store e.monitor_id e.now inc hop]
      exact ih store hinv (fun x hx => hdown x (List.mem_cons_of_mem e hx))
        (fun x hx => hopen x (List.mem_cons_of_mem e hx))

/-- C6 counterexample: for monitor 5 the sequence "down at 1, up at 2",
replayed twice, produces two incident rows where a single replay produces
one — the second replay re-creates an incident because the first one was
already resolved, so the sets of incidents differ. -/
theorem runUpdates_replay_counterexample :
    runUpdates emptyStore
        ([⟨5, false, 1⟩, ⟨5, true, 2⟩] ++ [⟨5, false, 1⟩, ⟨5, true, 2⟩]) ≠
      runUpdates emptyStore [⟨5, false, 1⟩, ⟨5, true, 2⟩] ∧
    Except.map (fun st => st.incidents.length)
        (runUpdates emptyStore
          ([⟨5, false, 1⟩, ⟨5, true, 2⟩] ++ [⟨5, false, 1⟩, ⟨5, true, 2⟩])) = .ok 2 ∧
    Except.map (fun st => st.incidents.length)
        (runUpdates emptyStore [⟨5, false, 1⟩, ⟨5, true, 2⟩]) = .ok 1 := by
  refine ⟨?_, by decide, by decide⟩
  decide

/-- C6 amended: replaying a sequence twice creates no duplicate incident
when the sequence does not resolve what it created: for a sequence of
results that are all down (or all up) for the monitor, the replayed run
produces exactly the same incidents as a single run. In general a second
replay of a mixed sequence re-creates incidents that the first replay
resolved (see the counterexample), while the "one open incident per
monitor" check still bounds every monitor to at most one open incident at
all times. -/
theorem runUpdates_replay_twice (events : List UpdateEvent)
    (h : (∀ e ∈ events, e.is_up = false) ∨ (∀ e ∈ events, e.is_up = true)) :
    runUpdates emptyStore (events ++ events) = runUpdates emptyStore events := by
  rcases h with hdown | hup
  · rcases runUpdates_allDown_first events emptyStore emptyStore_inv hdown with
      ⟨store2, heq, hinv2, _, hall⟩
    rw [runUpdates_append, heq]
    show runUpdates store2 events = Except.ok store2
    exact runUpdates_allDown_noop events store2 hinv2 hdown hall
  · rw [runUpdates_append, runUpdates_allUp events hup]
    show runUpdates emptyStore events = Except.ok emptyStore
    exact runUpdates_allUp events hup

/-- Witness for `runUpdates_replay_twice`: two down results for monitor 3. -/
theorem runUpdates_replay_twice_witness :
    ((∀ e ∈ [(⟨3, false, 1⟩ : UpdateEvent), ⟨3, false, 2⟩], e.is_up = false) ∨
      (∀ e ∈ [(⟨3, false, 1⟩ : UpdateEvent), ⟨3, false, 2⟩], e.is_up = true)) ∧
    runUpdates emptyStore
        ([⟨3, false, 1⟩, ⟨3, false, 2⟩] ++ [⟨3, false, 1⟩, ⟨3, false, 2⟩]) =
      runUpdates emptyStore [⟨3, false, 1⟩, ⟨3, false, 2⟩] :=
  ⟨Or.inl (by decide),
   runUpdates_replay_twice [⟨3, false, 1⟩, ⟨3, false, 2⟩] (Or.inl (by decide))⟩

/-! ### WebSocket manager -/

/-- Abstract handle of one live WebSocket connection. Distinct live
connections are distinct FastAPI WebSocket objects, so the active list of
a manager never holds duplicates; theorems take that as a `Nodup`
hypothesis. -/
abbrev Conn := Nat

/-- `WebSocketManager.disconnect` (manager.py lines 33-42): remove the
connection when present, otherwise do nothing; no exception either way. -/
def disconnect (active_connections : List Conn) (websocket : Conn) :
    List Conn :=
  if websocket ∈ active_connections then active_connections.erase websocket
  else active_connections

/-- Effects of one `WebSocketManager.broadcast` call: which connections
the message was sent to, and the active list afterwards. -/
structure BroadcastResult where
  delivered : List Conn
  active : List Conn
  deriving Repr, DecidableEq

/-- `WebSocketManager.broadcast` (manager.py lines 58-81). Whether the
`send_json` to an individual connection raises is the environment
parameter `fails`. The loop attempts delivery to every connection of the
active list, collecting the failed ones, and only afterwards disconnects
each failed connection. -/
def broadcast (active_connections : List Conn) (fails : Conn → Bool) :
    BroadcastResult :=
  if active_connections.isEmpty then
    { delivered := [], active := active_connections }
  else
    { delivered := active_connections.filter (fun c => !(fails c))
      active := (active_connections.filter fails).foldl disconnect
                  active_connections }

theorem disconnect_eq_erase (l : List Conn) (w : Conn) :
    disconnect l w = l.erase w := by
  unfold disconnect
  by_cases h : w ∈ l
  · rw [if_pos h]
  · rw [if_neg h, List.erase_of_not_mem h]

theorem disconnect_eq_filter (l : List Conn) (w : Conn) (h : l.Nodup) :
    disconnect l w = l.filter (fun x => x != w) := by
  rw [disconnect_eq_erase]
  exact h.erase_eq_filter w

theorem foldl_disconnect (d : List Conn) :
    ∀ l : List Conn, l.Nodup →
      d.foldl disconnect l = l.filter (fun c => !(decide (c ∈ d))) := by
  induction d with
  | nil =>
    intro l _
    show l = l.filter (fun c => !(decide (c ∈ ([] : List Conn))))
    rw [List.filter_eq_self.mpr]
    intro a _
    simp
  | cons a d ih =>
    intro l hl
    show List.foldl disconnect (disconnect l a) d = _
    rw [disconnect_eq_filter l a hl, ih (l.filter (fun x => x != a)) (hl.filter _),
        List.filter_filter]
    refine List.filter_congr ?_
    intro x _
    by_cases hxa : x = a
    · subst hxa
      simp
    · simp [List.mem_cons, hxa]

theorem foldl_disconnect_filter (l : List Conn) (p : Conn → Bool)
    (hl : l.Nodup) :
    (l.filter p).foldl disconnect l = l.filter (fun c => !(p c)) := by
  rw [foldl_disconnect (l.filter p) l hl]
  refine List.filter_congr ?_
  intro x hx
  by_cases hp : p x
  · simp [List.mem_filter, hx, hp]
  · simp [List.mem_filter, hp]

theorem broadcast_delivered (conns : List Conn) (fails : Conn → Bool) :
    (broadcast conns fails).delivered = conns.filter (fun c => !(fails c)) := by
  unfold broadcast
  by_cases h : conns.isEmpty
  · rw [if_pos h, List.isEmpty_iff.mp h]
    rfl
  · rw [if_neg h]

theorem broadcast_active (conns : List Conn) (fails : Conn → Bool)
    (h : conns.Nodup) :
    (broadcast conns fails).active = conns.filter (fun c => !(fails c)) := by
  unfold broadcast
  by_cases he : conns.isEmpty
  · rw [if_pos he, List.isEmpty_iff.mp he]
    rfl
  · rw [if_neg he]
    exact foldl_disconnect_filter conns fails h

/-- C8: for a set of live subscribers and a broadcast in which `fails`
says which deliveries raise, every failing subscriber is removed from the
active set, delivery is still attempted to (and succeeds for) every other
subscriber of the same broadcast, and any subsequent broadcast is
delivered only to the survivors. -/
theorem broadcast_failure_isolation (conns : List Conn)
    (fails fails2 : Conn → Bool) (h : conns.Nodup) :
    (broadcast conns fails).delivered = conns.filter (fun c => !(fails c)) ∧
    (∀ c ∈ conns, fails c = true → c ∉ (broadcast conns fails).active) ∧
    (broadcast conns fails).active = conns.filter (fun c => !(fails c)) ∧
    (broadcast ((broadcast conns fails).active) fails2).delivered =
      ((broadcast conns fails).active).filter (fun c => !(fails2 c)) ∧
    (∀ c ∈ (broadcast ((broadcast conns fails).active) fails2).delivered,
      c ∈ (broadcast conns fails).active ∧ fails c = false) := by
  have hact := broadcast_active conns fails h
  refine ⟨broadcast_delivered conns fails, ?_, hact, ?_, ?_⟩
  · intro c hc hf
    rw [hact]
    intro hmem
    have := (List.mem_filter.mp hmem).2
    rw [hf] at this
    exact absurd this (by simp)
  · exact broadcast_delivered _ fails2
  · intro c hc
    rw [broadcast_delivered _ fails2] at hc
    have hmem := (List.mem_filter.mp hc).1
    refine ⟨hmem, ?_⟩
    rw [hact] at hmem
    have := (List.mem_filter.mp hmem).2
    cases hfc : fails c
    · rfl
    · rw [hfc] at this
      exact absurd this (by simp)

/-- Witness for `broadcast_failure_isolation`: subscribers 1 and 2, the
delivery to 2 fails, the following broadcast fails for nobody. -/
theorem broadcast_failure_isolation_witness :
    (broadcast [1, 2] (fun c => c == 2)).delivered =
        [1, 2].filter (fun c => !((c == 2) : Bool)) ∧
    (∀ c ∈ [1, 2], (c == 2) = true → c ∉ (broadcast [1, 2] (fun c => c == 2)).active) ∧
    (broadcast [1, 2] (fun c => c == 2)).active =
        [1, 2].filter (fun c => !((c == 2) : Bool)) ∧
    (broadcast ((broadcast [1, 2] (fun c => c == 2)).active) (fun _ => false)).delivered =
      ((broadcast [1, 2] (fun c => c == 2)).active).filter (fun _ => !(false : Bool)) ∧
    (∀ c ∈ (broadcast ((broadcast [1, 2] (fun c => c == 2)).active) (fun _ => false)).delivered,
      c ∈ (broadcast [1, 2] (fun c => c == 2)).active ∧ (c == 2) = false) :=
  broadcast_failure_isolation [1, 2] (fun c => c == 2) (fun _ => false) (by decide)

/-- C10: `disconnect` removes the connection when it is in the active set,
leaves the set unchanged otherwise, raises nothing (it is a total
function), is idempotent, and is safe to call on a connection that a
failed broadcast delivery already evicted. -/
theorem disconnect_idempotent (l : List Conn) (w : Conn) (h : l.Nodup) :
    (w ∉ l → disconnect l w = l) ∧
    w ∉ disconnect l w ∧
    (∀ x ∈ l, x ≠ w → x ∈ disconnect l w) ∧
    disconnect (disconnect l w) w = disconnect l w ∧
    (∀ fails : Conn → Bool, fails w = true →
      disconnect ((broadcast l fails).active) w = (broadcast l fails).active) := by
  have hfil := disconnect_eq_filter l w h
  have hnotmem : w ∉ disconnect l w := by
    rw [hfil]
    intro hmem
    have := (List.mem_filter.mp hmem).2
    simp at this
  have hid : ∀ m : List Conn, w ∉ m → disconnect m w = m := by
    intro m hm
    unfold disconnect
    rw [if_neg hm]
  refine ⟨?_, hnotmem, ?_, ?_, ?_⟩
  · intro hw
    exact hid l hw
  · intro x hx hxw
    rw [hfil]
    refine List.mem_filter.mpr ⟨hx, ?_⟩
    simp [hxw]
  · exact hid _ hnotmem
  · intro fails hfw
    have hact := broadcast_active l fails h
    have hwnot : w ∉ (broadcast l fails).active := by
      rw [hact]
      intro hmem
      have := (List.mem_filter.mp hmem).2
      rw [hfw] at this
      exact absurd this (by simp)
    exact hid _ hwnot

/-- Witness for `disconnect_idempotent`: the active set is `[1, 2, 3]` and
connection 2 is disconnected. -/
theorem disconnect_idempotent_witness :
    ((2 : Conn) ∉ [1, 2, 3] → disconnect [1, 2, 3] 2 = [1, 2, 3]) ∧
    (2 : Conn) ∉ disconnect [1, 2, 3] 2 ∧
    (∀ x ∈ [1, 2, 3], x ≠ (2 : Conn) → x ∈ disconnect [1, 2, 3] 2) ∧
    disconnect (disconnect [1, 2, 3] 2) 2 = disconnect [1, 2, 3] 2 ∧
    (∀ fails : Conn → Bool, fails 2 = true →
      disconnect ((broadcast [1, 2, 3] fails).active) 2 =
        (broadcast [1, 2, 3] fails).active) :=
  disconnect_idempotent [1, 2, 3] 2 (by decide)

/-! ### Check cycle runner -/

/-- Observable effects of one run of `check_all_active_monitors`: the
health-check rows saved, the incident store after all per-monitor
handling, and every message the cycle passed to `ws_manager.broadcast`. -/
structure CycleEffects where
  checks_saved : List (Nat × CheckResult)
  store : IncidentStore
  broadcasts : List String
  deriving Repr, DecidableEq

/-- `perform_health_check` (health_checker.py lines 201-230) for one
monitor: run the probe, save the result, hand it to `handle_incident`.
The surrounding try/except catches a raise out of the incident handling
(the health check row is already committed at that point), logs it, and
the workflow continues. -/
def perform_health_check (store : IncidentStore) (monitor : APIMonitor)
    (outcome : HttpOutcome) (now : Nat) :
    IncidentStore × (Nat × CheckResult) :=
  let result := check_api monitor outcome
  match handle_incident store monitor.id result.is_up now with
  | .ok (store2, _) => (store2, (monitor.id, result))
  | .error _ => (store, (monitor.id, result))

/-- One monitor of the cycle: accumulate the saved row and the store.
Nothing is ever appended to `broadcasts`, because the loop body of
`check_all_active_monitors` contains no `ws_manager.broadcast` call. -/
def cycleStep (outcomes : Nat → HttpOutcome) (now : Nat)
    (acc : CycleEffects) (m : APIMonitor) : CycleEffects :=
  let r := perform_health_check acc.store m (outcomes m.id) now
  { acc with store := r.1, checks_saved := acc.checks_saved ++ [r.2] }

/-- `check_all_active_monitors` (health_checker.py lines 233-256): load
the monitors whose active flag is set, return immediately when there are
none, otherwise run one health check per monitor and finish. The
concurrent `asyncio.gather` is modelled as a fold; per-monitor handling is
serialized against the store, which is the consistency assumption of the
spec. No statement of the function (or of anything it calls) invokes
`ws_manager.broadcast`. -/
def check_all_active_monitors (monitors : List APIMonitor)
    (outcomes : Nat → HttpOutcome) (now : Nat) (store : IncidentStore) :
    CycleEffects :=
  let active := monitors.filter (fun m => m.is_active)
  if active.isEmpty then
    { checks_saved := [], store := store, broadcasts := [] }
  else
    active.foldl (cycleStep outcomes now)
      { checks_saved := [], store := store, broadcasts := [] }

theorem cycleStep_broadcasts (outcomes : Nat → HttpOutcome) (now : Nat) :
    ∀ (l : List APIMonitor) (acc : CycleEffects),
      (l.foldl (cycleStep outcomes now) acc).broadcasts = acc.broadcasts := by
  intro l
  induction l with
  | nil => intro acc; rfl
  | cons m rest ih =>
    intro acc
    rw [List.foldl_cons, ih]
    rfl

/-- C1 (divergence): the cycle runner signals no broadcast at all. The
first conjunct evaluates the cycle at a failing input for the claim — one
active monitor, a successful probe — and finds zero broadcast events where
the claim requires exactly one; the second shows this holds for every
cycle, so only the zero-monitor half of the claim is met by the code. -/
theorem cycle_broadcasts_nothing :
    (check_all_active_monitors
        [⟨1, "api", "http://x", "GET", [], 200, 60, 10, true⟩]
        (fun _ => .response 200 12) 5 emptyStore).broadcasts = [] ∧
    ∀ (monitors : List APIMonitor) (outcomes : Nat → HttpOutcome)
      (now : Nat) (store : IncidentStore),
      (check_all_active_monitors monitors outcomes now store).broadcasts = [] := by
  have hall : ∀ (monitors : List APIMonitor) (outcomes : Nat → HttpOutcome)
      (now : Nat) (store : IncidentStore),
      (check_all_active_monitors monitors outcomes now store).broadcasts = [] := by
    intro monitors outcomes now store
    unfold check_all_active_monitors
    by_cases h : (monitors.filter (fun m => m.is_active)).isEmpty
    · rw [if_pos h]
    · rw [if_neg h]
      rw [cycleStep_broadcasts]
  exact ⟨hall _ _ _ _, hall⟩

end Apiwatch
